import Mathlib

/-!
Shallow embedding of the crawl engine of `books_parser.py`
(books.toscrape.com scraper): the retrying HTTP fetch layer
(`make_request`), the listing-card extractor (`parse_book_card`), the
page scraper and paginated crawl (`scrape_page` / `scrape_all_pages`),
and the concurrent detail-page enrichment stage.

Modelling conventions:
* Python `str` is Lean `String`; the handful of `str` operations the
  source uses (`startswith`, slicing, `strip`, `lower`, substring `in`)
  are implemented on the underlying character lists.
* Python `float` arithmetic is modelled over `ℚ` (the program only ever
  parses decimal literals and multiplies/compares small values, all of
  which are exact).
* A Python dict is an association list in insertion order; `dict[k]=v`
  replaces the value of an existing key in place and appends fresh keys,
  exactly as CPython preserves insertion order.
* I/O is abstracted by oracles: `make_request` takes the outcome of each
  HTTP attempt as a function of the attempt index; the paginated crawl
  takes a `site` oracle mapping a page URL to the fetched document (or
  `none` for a fetch that failed after all retries); the enrichment
  stage takes an oracle for the detail-page parse result and an explicit
  completion order for the thread-pool futures.
* `time.sleep` is modelled by recording the slept delays; logging is
  dropped.
-/

namespace BooksScrape

/-! ### Python string primitives -/

/-- Character-list test used to model `str.startswith`. -/
def listPre : List Char → List Char → Bool
  | [], _ => true
  | _ :: _, [] => false
  | a :: as, b :: bs => a == b && listPre as bs

/-- Python `s.startswith(p)`. -/
def pyStartsWith (s p : String) : Bool := listPre p.data s.data

/-- Python slicing `s[n:]` (the source only slices ASCII hrefs). -/
def pySlice (s : String) (n : Nat) : String := String.mk (s.data.drop n)

/-- Whitespace for `str.strip` and the regex class `\s`. -/
def isPySpace (c : Char) : Bool :=
  c == ' ' || c == '\t' || c == '\n' || c == '\r' || c == '\x0b' || c == '\x0c'

/-- Python `s.strip()`. -/
def pyStrip (s : String) : String :=
  String.mk (((s.data.dropWhile isPySpace).reverse.dropWhile isPySpace).reverse)

/-- Python `s.lower()` (ASCII). -/
def pyLower (s : String) : String := String.mk (s.data.map Char.toLower)

/-- Character-list substring occurrence test. -/
def listHas (pat : List Char) : List Char → Bool
  | [] => listPre pat []
  | c :: rest => listPre pat (c :: rest) || listHas pat rest

/-- Python `needle in hay` on strings. -/
def pyContains (hay needle : String) : Bool := listHas needle.data hay.data

/-! ### Regex fragments used by the source

The source uses three patterns: `[\d.]+`, `(\d+)` and
`\((\d+)\s+available\)` (case-insensitive), always through `re.search`,
i.e. first match in the text. -/

/-- Class of `[\d.]`. -/
def isDigitDot (c : Char) : Bool := c.isDigit || c == '.'

/-- First maximal run of characters satisfying `p` (`re.search` of a
single positive character class). -/
def firstRun (p : Char → Bool) : List Char → Option (List Char)
  | [] => none
  | c :: rest => if p c then some (c :: rest.takeWhile p) else firstRun p rest

/-- Decimal value of a digit run. -/
def digitsToNat (l : List Char) : Nat :=
  l.foldl (fun a c => a * 10 + (c.toNat - '0'.toNat)) 0

/-- Python `float(run)` for a run matched by `[\d.]+`: succeeds iff the
run holds at least one digit and at most one dot, failing with
`ValueError` (`none`) otherwise — e.g. `float('.')` raises. -/
def parseFloatRun (l : List Char) : Option ℚ :=
  if l.any Char.isDigit = false then none
  else if l.count '.' = 0 then some (digitsToNat l)
  else if l.count '.' = 1 then
    let intPart := l.takeWhile (fun c => c != '.')
    let fracPart := (l.dropWhile (fun c => c != '.')).tail
    some ((digitsToNat intPart : ℚ) + (digitsToNat fracPart : ℚ) / (10 ^ fracPart.length))
  else none

/-- Characters of `available`, for the case-insensitive comparison. -/
def availChars : List Char := ['a', 'v', 'a', 'i', 'l', 'a', 'b', 'l', 'e']

/-- Try `\((\d+)\s+available\)` (case-insensitive) anchored at the head
of the list; returns the captured count. -/
def matchAvailAt : List Char → Option Nat
  | '(' :: rest =>
    let ds := rest.takeWhile Char.isDigit
    let r1 := rest.dropWhile Char.isDigit
    if ds.isEmpty then none
    else
      let r2 := r1.dropWhile isPySpace
      if r1.length == r2.length then none
      else if listPre availChars (r2.map Char.toLower) then
        match r2.drop 9 with
        | ')' :: _ => some (digitsToNat ds)
        | _ => none
      else none
  | _ => none

/-- `re.search(r'\((\d+)\s+available\)', text, re.IGNORECASE)`:
first match anywhere in the text. -/
def searchAvail : List Char → Option Nat
  | [] => none
  | c :: rest =>
    match matchAvailAt (c :: rest) with
    | some n => some n
    | none => searchAvail rest

/-! ### Python dicts as insertion-ordered association lists -/

/-- Record field values: the scraper stores strings, floats, ints and
booleans in its book dicts. -/
inductive Val where
  | s (v : String)
  | q (v : ℚ)
  | i (v : Int)
  | b (v : Bool)
deriving DecidableEq

/-- A book record: a Python dict in insertion order. -/
abbrev Record := List (String × Val)

/-- Python `m[k]` lookup (first occurrence; dicts built by `dictSet`
never hold duplicate keys). -/
def dictGet {α : Type} : List (String × α) → String → Option α
  | [], _ => none
  | (k', v) :: t, k => if k' = k then some v else dictGet t k

/-- Python `k in m`. -/
def hasKey {α : Type} : List (String × α) → String → Bool
  | [], _ => false
  | (k', _) :: t, k => if k' = k then true else hasKey t k

/-- Python `m[k] = v`: replace in place if the key exists, else append
(insertion order preserved, as in CPython). -/
def dictSet {α : Type} : List (String × α) → String → α → List (String × α)
  | [], k, v => [(k, v)]
  | (k', v') :: t, k, v => if k' = k then (k', v) :: t else (k', v') :: dictSet t k v

/-- Python `base.update(upd)`: right-biased key-wise union. -/
def dictUpdate (base upd : Record) : Record :=
  upd.foldl (fun m kv => dictSet m kv.1 kv.2) base

/-! ### `urllib.parse.urljoin`, restricted to the hierarchical http(s)
URLs this program builds (scheme://host paths, RFC 3986 merge with
dot-segment removal). -/

/-- Split off a leading `scheme://`: returns the characters up to and
including `://` and the remainder. -/
def splitAfterScheme : List Char → Option (List Char × List Char)
  | [] => none
  | c :: rest =>
    if listPre [':', '/', '/'] (c :: rest) then some ([':', '/', '/'], (c :: rest).drop 3)
    else
      match splitAfterScheme rest with
      | none => none
      | some (sc, post) => some (c :: sc, post)

/-- Split a URL into `scheme://host` and the path (starting at the first
`/` after the host, possibly empty). -/
def splitSchemeHost (u : List Char) : Option (List Char × List Char) :=
  match splitAfterScheme u with
  | none => none
  | some (sc, rest) =>
    some (sc ++ rest.takeWhile (fun c => c != '/'), rest.dropWhile (fun c => c != '/'))

/-- Path up to and including the last `/` (empty when there is none). -/
def dropLastSeg (l : List Char) : List Char :=
  (l.reverse.dropWhile (fun c => c != '/')).reverse

/-- Split a path on `/`. -/
def splitSlash : List Char → List (List Char)
  | [] => [[]]
  | c :: rest =>
    let r := splitSlash rest
    if c = '/' then [] :: r
    else
      match r with
      | [] => [[c]]
      | h :: t => (c :: h) :: t

/-- Join path segments with `/`. -/
def joinSlash : List (List Char) → List Char
  | [] => []
  | [s] => s
  | s :: rest => s ++ '/' :: joinSlash rest

/-- RFC 3986 dot-segment removal (a leading empty segment marks the
root and is never popped). -/
def remDots (segs : List (List Char)) : List (List Char) :=
  segs.foldl
    (fun acc s =>
      if s = ['.'] then acc
      else if s = ['.', '.'] then (if acc.length ≤ 1 then acc else acc.dropLast)
      else acc ++ [s])
    []

/-- `urljoin(base, rel)` for the absolute http(s) bases and relative
hrefs this scraper produces. -/
def urljoin (base rel : String) : String :=
  if listHas [':', '/', '/'] rel.data then rel
  else
    match splitSchemeHost base.data with
    | none => rel
    | some (sh, path) =>
      if rel.data.isEmpty then base
      else if listPre ['/'] rel.data then
        String.mk (sh ++ joinSlash (remDots (splitSlash rel.data)))
      else
        let merged := dropLastSeg path ++ rel.data
        let merged2 := if listPre ['/'] merged then merged else '/' :: merged
        String.mk (sh ++ joinSlash (remDots (splitSlash merged2)))

/-! ### Configuration (`src/constants.py` / `get_scraper_config`) -/

/-- The fields of `CUSTOM_CONFIG` the crawl engine reads (headers are
opaque to the model). -/
structure ScraperConfig where
  base_url : String
  min_delay : ℚ
  max_delay : ℚ
  max_retries : Nat
  timeout : ℚ
deriving DecidableEq

/-- `CUSTOM_CONFIG` from `src/constants.py`. -/
def CUSTOM_CONFIG : ScraperConfig :=
  { base_url := "https://books.toscrape.com"
    min_delay := 1
    max_delay := 3
    max_retries := 3
    timeout := 10 }

/-! ### `make_request`: retrying fetch -/

/-- Outcome of one `session.get` attempt: an HTTP status, or one of the
exception classes the source catches. -/
inductive AttemptOutcome where
  | status (code : Nat)
  | connError
  | timeoutErr
  | tooManyRedirects
  | httpError
  | otherExc
deriving DecidableEq

/-- How `make_request` reacts to one attempt: return the response
(status 200), give up at once (non-200 non-5xx status, redirect loop),
or fall through to the retry logic (5xx, connection error, timeout,
HTTPError, generic exception). -/
inductive AttemptClass where
  | success
  | terminalFail
  | retryable
deriving DecidableEq

/-- Classification performed by the body of the `for attempt` loop. -/
def classifyOutcome : AttemptOutcome → AttemptClass
  | .status c =>
    if c = 200 then .success
    else if 500 ≤ c ∧ c < 600 then .retryable
    else .terminalFail
  | .connError => .retryable
  | .timeoutErr => .retryable
  | .tooManyRedirects => .terminalFail
  | .httpError => .retryable
  | .otherExc => .retryable

/-- Result of a `make_request` call: whether a response was returned,
how many HTTP attempts were issued, and the backoff delays slept (in
order) between attempts. -/
structure RequestRun where
  ok : Bool
  attempts : Nat
  delays : List ℚ
deriving DecidableEq

/-- The delay computed before a retry of attempt `attempt`:
`min(min_delay * 2 ** attempt, max_delay * 3)`. -/
def backoff (config : ScraperConfig) (attempt : Nat) : ℚ :=
  min (config.min_delay * 2 ^ attempt) (config.max_delay * 3)

/-- The `for attempt in range(max_retries + 1)` loop of `make_request`,
at attempt index `k` with `fuel` loop iterations remaining. -/
def requestLoop (outcome : Nat → AttemptOutcome) (config : ScraperConfig) :
    Nat → Nat → RequestRun
  | k, 0 => { ok := false, attempts := k, delays := [] }
  | k, fuel + 1 =>
    match classifyOutcome (outcome k) with
    | .success => { ok := true, attempts := k + 1, delays := [] }
    | .terminalFail => { ok := false, attempts := k + 1, delays := [] }
    | .retryable =>
      if fuel = 0 then { ok := false, attempts := k + 1, delays := [] }
      else
        let rest := requestLoop outcome config (k + 1) fuel
        { ok := rest.ok, attempts := rest.attempts, delays := backoff config k :: rest.delays }

/-- `make_request(url, config, session)` with the per-attempt transport
behaviour supplied by `outcome`. -/
def make_request (outcome : Nat → AttemptOutcome) (config : ScraperConfig) : RequestRun :=
  requestLoop outcome config 0 (config.max_retries + 1)

/-! ### `parse_book_card`: listing-card extraction -/

/-- The `<h3><a>` element of a card: its `title` attribute (if any),
its text, and its `href` attribute (if any). -/
structure LinkElem where
  titleAttr : Option String
  text : String
  href : Option String
deriving DecidableEq

/-- A stock/availability `<p>` element: its class token list and its
text. -/
structure StockElem where
  classes : List String
  text : String
deriving DecidableEq

/-- The parts of a listing card the extractor reads. `h3a` is `none`
when `card.find('h3')` or its `.find('a')` is missing (either raises
`AttributeError` inside the `try`, so the card yields `None`). -/
structure Card where
  h3a : Option LinkElem
  priceText : Option String
  ratingClasses : Option (List String)
  instockAvail : Option StockElem
  avail : Option StockElem
deriving DecidableEq

/-- `RATING_MAP` from `src/constants.py`. -/
def RATING_MAP : List (String × Int) :=
  [("One", 1), ("Two", 2), ("Three", 3), ("Four", 4), ("Five", 5), ("Zero", 0)]

/-- `DEFAULT_RATING` from `src/constants.py`. -/
def DEFAULT_RATING : Int := 0

/-- The `for cls in rating_classes` loop with its `for`/`else` default. -/
def ratingFromClasses : List String → Int
  | [] => DEFAULT_RATING
  | c :: rest =>
    match dictGet RATING_MAP c with
    | some v => v
    | none => ratingFromClasses rest

/-- The relative-href rewriting block of `parse_book_card`
(lines 195-200). -/
def normalizeHref (href : String) : String :=
  if pyStartsWith href "../../../" then "catalogue/" ++ pySlice href 9
  else if pyStartsWith href "../../" then "catalogue/" ++ pySlice href 6
  else if pyStartsWith href "catalogue/" = false then "catalogue/" ++ href
  else href

/-- The stripped price text the extractor scans
(`price_elem.text.strip() if price_elem else ''`). -/
def priceTextOf (card : Card) : String :=
  match card.priceText with
  | some t => pyStrip t
  | none => ""

/-- The price stanza (lines 142-148): `0.0` when `re.search(r'[\d.]+')`
finds nothing, else `float(match)` — `none` when `float` raises. -/
def cardPrice (card : Card) : Option ℚ :=
  match firstRun isDigitDot (priceTextOf card).data with
  | none => some 0
  | some run => parseFloatRun run

/-- `parse_book_card(card, base_url)`: `none` models the `except` branch
(missing `h3`/`a`, or `float` raising `ValueError` on the matched price
run); otherwise the book dict in its insertion order. -/
def parse_book_card (card : Card) (base_url : String) : Option Record :=
  match card.h3a with
  | none => none
  | some link =>
    let title :=
      match link.titleAttr with
      | some t => t
      | none => pyStrip link.text
    match cardPrice card with
    | none => none
    | some price =>
      let rating_classes :=
        match card.ratingClasses with
        | some cs => cs
        | none => []
      let rating := ratingFromClasses rating_classes
      let stock_elem :=
        match card.instockAvail with
        | some e => some e
        | none => card.avail
      let stock_text :=
        match stock_elem with
        | some e => pyStrip e.text
        | none => ""
      let stock : Int :=
        match searchAvail stock_text.data with
        | some n => (n : Int)
        | none =>
          match firstRun Char.isDigit stock_text.data with
          | some ds => (digitsToNat ds : Int)
          | none => 0
      let in_stock : Bool :=
        match stock_elem with
        | none => false
        | some e =>
          e.classes.contains "instock"
            || pyContains (pyLower stock_text) "available"
            || pyContains (pyLower stock_text) "in stock"
      let href :=
        match link.href with
        | some h => h
        | none => ""
      let url := urljoin base_url (normalizeHref href)
      some [("title", Val.s title), ("price", Val.q price), ("rating", Val.i rating),
            ("stock", Val.i stock), ("in_stock", Val.b in_stock), ("url", Val.s url)]

/-! ### `scrape_page` and the paginated crawl -/

/-- One fetched catalog page as the scraper sees it: the card matches of
`article.product_pod`, the fallback matches of `li.col-xs-6 article`,
and the `href` of the `li.next > a` link (`none` when the element chain
is missing). -/
structure PageDoc where
  bookCards : List Card
  altBookCards : List Card
  nextHref : Option String
deriving DecidableEq

/-- The records of a page: the primary card list, or the fallback
selector when it is empty, each card through `parse_book_card`, `None`
results skipped. -/
def pageRecords (doc : PageDoc) (config : ScraperConfig) : List Record :=
  (if doc.bookCards.isEmpty then doc.altBookCards else doc.bookCards).filterMap
    (fun c => parse_book_card c config.base_url)

/-- The next-page URL of a page (lines 444-457): a non-empty `href`
resolved against `base_url` when it already looks like a catalog path,
else against the current page URL. -/
def pageNext (doc : PageDoc) (url : String) (config : ScraperConfig) : Option String :=
  match doc.nextHref with
  | none => none
  | some h =>
    if h.data.isEmpty then none
    else if pyStartsWith h "catalogue/" then some (urljoin config.base_url h)
    else some (urljoin url h)

/-- `scrape_page(url, config, session)` with the fetch abstracted by the
`site` oracle; a failed fetch (`none`) returns `([], None)`. -/
def scrape_page (site : String → Option PageDoc) (url : String) (config : ScraperConfig) :
    List Record × Option String :=
  match site url with
  | none => ([], none)
  | some doc => (pageRecords doc config, pageNext doc url config)

/-- Python truthiness of `max_pages and page_num > max_pages`
(`max_pages=None` and `max_pages=0` are both falsy). -/
def pageCap : Option Nat → Nat → Bool
  | none, _ => false
  | some m, page_num => if m = 0 then false else decide (m < page_num)

/-- The `while current_url` loop of `scrape_all_pages` (basic pass),
instrumented with the list of page URLs actually fetched; `fuel` bounds
the number of iterations (the claims are stated with ample fuel). -/
def crawlLoop (site : String → Option PageDoc) (config : ScraperConfig)
    (maxPages : Option Nat) : String → Nat → Nat → List Record × List String
  | _, _, 0 => ([], [])
  | current_url, page_num, fuel + 1 =>
    if pageCap maxPages page_num then ([], [])
    else
      let step := scrape_page site current_url config
      match step.2 with
      | some next_url =>
        let rest := crawlLoop site config maxPages next_url (page_num + 1) fuel
        (step.1 ++ rest.1, current_url :: rest.2)
      | none => (step.1, [current_url])

/-- `scrape_all_pages(config, max_pages, get_detailed=False)`: records
in traversal order, paired with the trace of fetched page URLs. -/
def scrape_all_pages (site : String → Option PageDoc) (config : ScraperConfig)
    (maxPages : Option Nat) (fuel : Nat) : List Record × List String :=
  crawlLoop site config maxPages (config.base_url ++ "/catalogue/page-1.html") 1 fuel

/-! ### The enrichment stage of `scrape_all_pages` (get_detailed=True)

Each submitted task runs `scrape_book_detail(url, config)`; its fetching
and HTML parsing are abstracted by an oracle giving, per fetched URL,
the fields `parse_book_detail_page` assembled before its final
`book_details['url'] = url` assignment (`none` for a fetch/parse
failure, a raised exception, or a `future.result` timeout — all of which
leave the base record untouched). `order` is the completion order in
which `as_completed` yields the futures. -/

/-- The URL-completion block of `scrape_book_detail` (lines 386-390). -/
def resolveDetailUrl (config : ScraperConfig) (url : String) : String :=
  if pyStartsWith url "http" then url
  else if pyStartsWith url "catalogue/" then config.base_url ++ "/" ++ url
  else config.base_url ++ "/catalogue/" ++ url

/-- `book['url']` of a record (the claims' hypotheses require the key to
be present with a string value, as `parse_book_card` guarantees). -/
def urlOf (r : Record) : String :=
  match dictGet r "url" with
  | some (Val.s u) => u
  | _ => ""

/-- `book_dict = {book['url']: book for book in all_books}` (line 548). -/
def buildIndex (books : List Record) : List (String × Record) :=
  books.foldl (fun m b => dictSet m (urlOf b) b) []

/-- The detail record a task delivers for `url`: the oracle's parsed
fields with `book_details['url'] = url` applied to the resolved URL
(line 353). -/
def taskDetail (config : ScraperConfig) (oracle : String → Option Record)
    (url : String) : Option Record :=
  match oracle (resolveDetailUrl config url) with
  | none => none
  | some d => some (dictSet d "url" (Val.s (resolveDetailUrl config url)))

/-- Processing one completed future (lines 561-568): on a truthy result
for a known URL, `book_dict[url].update(detailed_info)` in place. -/
def applyTask (config : ScraperConfig) (oracle : String → Option Record)
    (m : List (String × Record)) (url : String) : List (String × Record) :=
  match taskDetail config oracle url with
  | none => m
  | some detailed =>
    if detailed.isEmpty = false && hasKey m url then
      m.map (fun p => if p.1 = url then (p.1, dictUpdate p.2 detailed) else p)
    else m

/-- The `for future in concurrent.futures.as_completed(...)` loop. -/
def processTasks (config : ScraperConfig) (oracle : String → Option Record)
    (order : List String) (m : List (String × Record)) : List (String × Record) :=
  order.foldl (applyTask config oracle) m

/-- The enrichment stage: index the base records by URL, fold the
completed tasks over the index, return `list(book_dict.values())`. -/
def enrichAll (config : ScraperConfig) (books : List Record)
    (oracle : String → Option Record) (order : List String) : List Record :=
  (processTasks config oracle order (buildIndex books)).map (fun p => p.2)

/-- `scrape_all_pages(config, max_pages, get_detailed=True)`: the base
crawl runs to completion first, then the enrichment pass merges the
detail records. -/
def scrape_all_pages_detailed (site : String → Option PageDoc) (config : ScraperConfig)
    (maxPages : Option Nat) (fuel : Nat) (oracle : String → Option Record)
    (order : List String) : List Record :=
  enrichAll config (scrape_all_pages site config maxPages fuel).1 oracle order

/-! ### Claim-side observation functions (the stock/availability rules
as the specification words them, to be compared with the extractor). -/

/-- The stock element the extractor settles on: the
`instock availability` element, else the plain `availability` one. -/
def stockElemOf (card : Card) : Option StockElem :=
  match card.instockAvail with
  | some e => some e
  | none => card.avail

/-- The stripped text of the chosen stock element (empty when absent). -/
def stockTextOf (card : Card) : String :=
  match stockElemOf card with
  | some e => pyStrip e.text
  | none => ""

/-- The stock count rule: the count of the first `(<N> available)`
match, else the first bare integer, else `0`. -/
def stockCountOf (card : Card) : Int :=
  match searchAvail (stockTextOf card).data with
  | some n => (n : Int)
  | none =>
    match firstRun Char.isDigit (stockTextOf card).data with
    | some ds => (digitsToNat ds : Int)
    | none => 0

/-- The in-stock rule: the element exists and carries the `instock`
class token, or its lowercased text contains `available` or `in stock`. -/
def inStockOf (card : Card) : Bool :=
  match stockElemOf card with
  | none => false
  | some e =>
    e.classes.contains "instock"
      || pyContains (pyLower (stockTextOf card)) "available"
      || pyContains (pyLower (stockTextOf card)) "in stock"

/-- A card with its link `href` replaced (to compare two otherwise
identical cards). -/
def setHref (card : Card) (h : String) : Card :=
  { card with h3a := card.h3a.map (fun l => { l with href := some h }) }

/-! ### Helper lemmas: strings -/

theorem data_append (a b : String) : (a ++ b).data = a.data ++ b.data := by
  cases a; cases b; rfl

theorem mk_data (s : String) : String.mk s.data = s := by
  cases s; rfl

theorem listPre_append_self (p rest : List Char) : listPre p (p ++ rest) = true := by
  induction p with
  | nil => rfl
  | cons c cs ih => simp [listPre, ih]

/-! ### Helper lemmas: dict operations -/

theorem dictGet_dictSet_self {α : Type} (m : List (String × α)) (k : String) (v : α) :
    dictGet (dictSet m k v) k = some v := by
  induction m with
  | nil => simp [dictSet, dictGet]
  | cons p t ih =>
    by_cases h : p.1 = k
    · simp [dictSet, dictGet, h]
    · simp [dictSet, dictGet, h, ih]

theorem dictGet_dictSet_ne {α : Type} (m : List (String × α)) (k k2 : String) (v : α)
    (h : k2 ≠ k) : dictGet (dictSet m k v) k2 = dictGet m k2 := by
  have h' : ¬(k = k2) := fun hh => h hh.symm
  induction m with
  | nil => simp [dictSet, dictGet, h']
  | cons p t ih =>
    obtain ⟨k1, v1⟩ := p
    by_cases hp : k1 = k
    · subst hp
      simp [dictSet, dictGet, h']
    · simp [dictSet, dictGet, hp, ih]

theorem hasKey_iff_mem {α : Type} (m : List (String × α)) (k : String) :
    hasKey m k = true ↔ k ∈ m.map Prod.fst := by
  induction m with
  | nil => simp [hasKey]
  | cons p t ih =>
    obtain ⟨k1, v1⟩ := p
    by_cases h : k1 = k
    · subst h; simp [hasKey]
    · have h2 : ¬(k = k1) := fun hh => h hh.symm
      simp [hasKey, h, h2, ih]

theorem dictSet_fresh {α : Type} (m : List (String × α)) (k : String) (v : α)
    (h : hasKey m k = false) : dictSet m k v = m ++ [(k, v)] := by
  induction m with
  | nil => simp [dictSet]
  | cons p t ih =>
    obtain ⟨k1, v1⟩ := p
    by_cases hp : k1 = k
    · simp [hasKey, hp] at h
    · simp only [hasKey, hp, if_false] at h
      simp [dictSet, hp, ih h]

theorem map_fst_dictSet_mem {α : Type} (m : List (String × α)) (k : String) (v : α)
    (h : hasKey m k = true) : (dictSet m k v).map Prod.fst = m.map Prod.fst := by
  induction m with
  | nil => simp [hasKey] at h
  | cons p t ih =>
    obtain ⟨k1, v1⟩ := p
    by_cases hp : k1 = k
    · simp [dictSet, hp]
    · simp only [hasKey, hp, if_false] at h
      simp [dictSet, hp, ih h]

theorem map_fst_dictSet_nodup {α : Type} (m : List (String × α)) (k : String) (v : α)
    (h : (m.map Prod.fst).Nodup) : ((dictSet m k v).map Prod.fst).Nodup := by
  cases hk : hasKey m k with
  | true => rw [map_fst_dictSet_mem m k v hk]; exact h
  | false =>
    rw [dictSet_fresh m k v hk]
    simp only [List.map_append, List.map_cons, List.map_nil]
    rw [List.nodup_append]
    refine ⟨h, List.nodup_singleton _, ?_⟩
    intro a ha hb
    simp at hb
    subst hb
    exact absurd ((hasKey_iff_mem m a).2 ha) (by simp [hk])

theorem hasKey_eq_false_of_not_mem {α : Type} (m : List (String × α)) (k : String)
    (h : k ∉ m.map Prod.fst) : hasKey m k = false := by
  cases hk : hasKey m k with
  | false => rfl
  | true => exact absurd ((hasKey_iff_mem m k).1 hk) h

theorem dictGet_dictUpdate_not_mem (base detail : Record) (k : String)
    (h : hasKey detail k = false) :
    dictGet (dictUpdate base detail) k = dictGet base k := by
  induction detail generalizing base with
  | nil => rfl
  | cons p t ih =>
    by_cases hp : p.1 = k
    · simp [hasKey, hp] at h
    · simp [hasKey, hp] at h
      show dictGet (dictUpdate (dictSet base p.1 p.2) t) k = dictGet base k
      rw [ih (dictSet base p.1 p.2) h, dictGet_dictSet_ne base p.1 k p.2 (fun hh => hp hh.symm)]

theorem dictGet_dictUpdate_mem (base detail : Record) (k : String)
    (hnd : (detail.map Prod.fst).Nodup) (h : hasKey detail k = true) :
    dictGet (dictUpdate base detail) k = dictGet detail k := by
  induction detail generalizing base with
  | nil => simp [hasKey] at h
  | cons p t ih =>
    simp only [List.map_cons, List.nodup_cons] at hnd
    by_cases hp : p.1 = k
    · have ht : hasKey t k = false :=
        hasKey_eq_false_of_not_mem t k (by rw [← hp]; exact hnd.1)
      show dictGet (dictUpdate (dictSet base p.1 p.2) t) k = _
      rw [dictGet_dictUpdate_not_mem _ t k ht, hp, dictGet_dictSet_self]
      simp [dictGet, hp]
    · simp [hasKey, hp] at h
      show dictGet (dictUpdate (dictSet base p.1 p.2) t) k = _
      rw [ih (dictSet base p.1 p.2) hnd.2 h]
      simp [dictGet, hp]

/-! ### C1: relative-href normalization -/

theorem normalizeHref_threeUp (x : String)
    (hx1 : pyStartsWith x "../../../" = false)
    (hx2 : pyStartsWith x "../../" = false)
    (hx3 : pyStartsWith x "catalogue/" = false) :
    normalizeHref ("../../../" ++ x) = normalizeHref x := by
  have hsw : pyStartsWith ("../../../" ++ x) "../../../" = true := by
    unfold pyStartsWith
    rw [data_append]
    exact listPre_append_self _ _
  have hdrop : pySlice ("../../../" ++ x) 9 = x := by
    unfold pySlice
    rw [data_append]
    have h9 : ("../../../" : String).data.length = 9 := rfl
    rw [← h9, List.drop_left, mk_data]
  rw [normalizeHref, normalizeHref, hsw, hx1, hx2, hx3, hdrop]
  simp

theorem parse_book_card_setHref_congr (card : Card) (base_url : String) (h1 h2 : String)
    (h : normalizeHref h1 = normalizeHref h2) :
    parse_book_card (setHref card h1) base_url = parse_book_card (setHref card h2) base_url := by
  cases hc : card.h3a with
  | none => simp [setHref, hc, parse_book_card]
  | some l => simp [setHref, hc, parse_book_card, cardPrice, priceTextOf, h]

/-- C1 (counterexample): under `base_url = "https://books.toscrape.com"`,
a card whose href is `../../../catalogue/foo.html` resolves to
`…/catalogue/catalogue/foo.html` while the otherwise identical card with
href `catalogue/foo.html` resolves to `…/catalogue/foo.html` — the two
`url` fields differ, contradicting the claim. -/
theorem c1_counterexample :
    (parse_book_card
        { h3a := some { titleAttr := some "T", text := "T", href := some "../../../catalogue/foo.html" },
          priceText := none, ratingClasses := none, instockAvail := none, avail := none }
        "https://books.toscrape.com").map urlOf
      = some "https://books.toscrape.com/catalogue/catalogue/foo.html" ∧
    (parse_book_card
        { h3a := some { titleAttr := some "T", text := "T", href := some "catalogue/foo.html" },
          priceText := none, ratingClasses := none, instockAvail := none, avail := none }
        "https://books.toscrape.com").map urlOf
      = some "https://books.toscrape.com/catalogue/foo.html" ∧
    ("https://books.toscrape.com/catalogue/catalogue/foo.html" : String)
      ≠ "https://books.toscrape.com/catalogue/foo.html" := by
  refine ⟨by decide, by decide, by decide⟩

/-- C1 (amended): for every `base_url`, a card whose href is
`../../../X` yields the same record — in particular the same absolute
`url` — as the otherwise identical card with raw href `X`, provided the
remainder `X` does not itself start with `catalogue/` (or with a
`../../`/`../../../` run): both rewrite to `catalogue/X`. The claim's
own instance `X = catalogue/foo.html` is excluded, since there the
rewrite produces `catalogue/catalogue/foo.html` while the raw href is
kept as `catalogue/foo.html`. -/
theorem c1_url_normalization (base_url : String) (card : Card) (x : String)
    (hx1 : pyStartsWith x "../../../" = false)
    (hx2 : pyStartsWith x "../../" = false)
    (hx3 : pyStartsWith x "catalogue/" = false) :
    parse_book_card (setHref card ("../../../" ++ x)) base_url
      = parse_book_card (setHref card x) base_url :=
  parse_book_card_setHref_congr card base_url _ _ (normalizeHref_threeUp x hx1 hx2 hx3)

/-- C1 witness: the amended theorem applied to a concrete card,
`base_url` and remainder `foo.html`. -/
theorem c1_url_normalization_witness :
    parse_book_card
        (setHref
          { h3a := some { titleAttr := some "W", text := "W", href := some "w" },
            priceText := some "£10.00", ratingClasses := none, instockAvail := none,
            avail := none }
          ("../../../" ++ "foo.html"))
        "https://books.toscrape.com"
      = parse_book_card
        (setHref
          { h3a := some { titleAttr := some "W", text := "W", href := some "w" },
            priceText := some "£10.00", ratingClasses := none, instockAvail := none,
            avail := none }
          "foo.html")
        "https://books.toscrape.com" :=
  c1_url_normalization "https://books.toscrape.com" _ "foo.html"
    (by decide) (by decide) (by decide)

/-! ### C5: enrichment merge is a right-biased field union -/

theorem hasKey_dictSet_self {α : Type} (m : List (String × α)) (k : String) (v : α) :
    hasKey (dictSet m k v) k = true := by
  induction m with
  | nil => simp [dictSet, hasKey]
  | cons p t ih =>
    obtain ⟨k1, v1⟩ := p
    by_cases hp : k1 = k <;> simp [dictSet, hasKey, hp, ih]

/-- C5: `book_dict[url].update(detailed_info)` is a right-biased field
union — every key of the detail dict overwrites the base value, every
absent key leaves the base untouched — and the detail record a task
merges (whose `url` field was set to the resolved task URL at line 353)
leaves the base record's absolute `url` unchanged. -/
theorem c5_merge_right_biased (base detail : Record) (k : String)
    (hnd : (detail.map Prod.fst).Nodup) :
    (hasKey detail k = true → dictGet (dictUpdate base detail) k = dictGet detail k) ∧
    (hasKey detail k = false → dictGet (dictUpdate base detail) k = dictGet base k) ∧
    (∀ (config : ScraperConfig) (d : Record) (u : String),
      (d.map Prod.fst).Nodup →
      pyStartsWith u "http" = true →
      dictGet base "url" = some (Val.s u) →
      dictGet (dictUpdate base (dictSet d "url" (Val.s (resolveDetailUrl config u)))) "url"
        = some (Val.s u)) := by
  refine ⟨fun h => dictGet_dictUpdate_mem base detail k hnd h,
          fun h => dictGet_dictUpdate_not_mem base detail k h, ?_⟩
  intro config d u hd hu _
  have hres : resolveDetailUrl config u = u := by
    unfold resolveDetailUrl
    rw [hu]
    simp
  rw [hres]
  rw [dictGet_dictUpdate_mem base _ "url" (map_fst_dictSet_nodup d "url" _ hd)
        (hasKey_dictSet_self d "url" _),
      dictGet_dictSet_self]

/-- C5 witness: a detail dict with `tax` overwrites the base `tax`, a
detail dict without `category` leaves the base's absence of `category`
unchanged, and the merged `url` equals the base `url`. -/
theorem c5_merge_right_biased_witness :
    dictGet (dictUpdate [("tax", Val.q 1), ("url", Val.s "https://b/x")] [("tax", Val.q 2)]) "tax"
      = dictGet [("tax", Val.q 2)] "tax" ∧
    dictGet (dictUpdate [("tax", Val.q 1), ("url", Val.s "https://b/x")] [("tax", Val.q 2)])
        "category"
      = dictGet [("tax", Val.q 1), ("url", Val.s "https://b/x")] "category" ∧
    dictGet
        (dictUpdate [("tax", Val.q 1), ("url", Val.s "https://b/x")]
          (dictSet [("tax", Val.q 2)] "url" (Val.s (resolveDetailUrl CUSTOM_CONFIG "https://b/x"))))
        "url"
      = some (Val.s "https://b/x") :=
  ⟨(c5_merge_right_biased [("tax", Val.q 1), ("url", Val.s "https://b/x")] [("tax", Val.q 2)]
      "tax" (by decide)).1 (by decide),
   (c5_merge_right_biased [("tax", Val.q 1), ("url", Val.s "https://b/x")] [("tax", Val.q 2)]
      "category" (by decide)).2.1 (by decide),
   (c5_merge_right_biased [("tax", Val.q 1), ("url", Val.s "https://b/x")] [("tax", Val.q 2)]
      "tax" (by decide)).2.2 CUSTOM_CONFIG [("tax", Val.q 2)] "https://b/x"
      (by decide) (by decide) (by decide)⟩

/-! ### C6: the price extraction rule -/

/-- C6 (counterexample): a card whose price text is `"."` has a
non-empty `[\d.]+` match that is not a parseable number; `float('.')`
raises `ValueError`, so `parse_book_card` returns `None` — no record
with `price = 0.0` is produced, contradicting the claim's "0.0 whenever
… no parseable number". -/
theorem c6_counterexample :
    parse_book_card
        { h3a := some { titleAttr := some "T", text := "T", href := some "x.html" },
          priceText := some ".", ratingClasses := none, instockAvail := none, avail := none }
        "https://books.toscrape.com" = none ∧
    firstRun isDigitDot
        (priceTextOf
          { h3a := some { titleAttr := some "T", text := "T", href := some "x.html" },
            priceText := some ".", ratingClasses := none, instockAvail := none,
            avail := none }).data
      = some ['.'] := by
  exact ⟨by decide, by decide⟩

/-- C6 (amended): for a card whose heading link exists, the extracted
`price` equals the numeric value of the first run of digit/decimal-point
characters in the stripped price text whenever that run parses as a
`float`, and equals `0.0` whenever the price element is absent or its
text holds no digit/dot characters at all; when the first run exists but
`float` cannot parse it (e.g. `"."`), the whole card extraction returns
`None` instead of a record. -/
theorem c6_price_rule (card : Card) (base_url : String) (link : LinkElem)
    (hl : card.h3a = some link) :
    (firstRun isDigitDot (priceTextOf card).data = none →
      ∃ r, parse_book_card card base_url = some r ∧ dictGet r "price" = some (Val.q 0)) ∧
    (∀ run v, firstRun isDigitDot (priceTextOf card).data = some run →
      parseFloatRun run = some v →
      ∃ r, parse_book_card card base_url = some r ∧ dictGet r "price" = some (Val.q v)) ∧
    (∀ run, firstRun isDigitDot (priceTextOf card).data = some run →
      parseFloatRun run = none →
      parse_book_card card base_url = none) := by
  refine ⟨?_, ?_, ?_⟩
  · intro h
    have hcp : cardPrice card = some 0 := by simp [cardPrice, h]
    simp only [parse_book_card, hl, hcp]
    exact ⟨_, rfl, rfl⟩
  · intro run v h1 h2
    have hcp : cardPrice card = some v := by simp [cardPrice, h1, h2]
    simp only [parse_book_card, hl, hcp]
    exact ⟨_, rfl, rfl⟩
  · intro run h1 h2
    have hcp : cardPrice card = none := by simp [cardPrice, h1, h2]
    simp only [parse_book_card, hl, hcp]

/-- C6 witness: the amended theorem at a concrete card with price text
`£51.77`, whose first digit/dot run is `51.77`. -/
theorem c6_price_rule_witness :
    ∃ r,
      parse_book_card
          { h3a := some { titleAttr := some "T", text := "T", href := some "x.html" },
            priceText := some "£51.77", ratingClasses := none, instockAvail := none,
            avail := none }
          "https://books.toscrape.com" = some r ∧
      dictGet r "price" = some (Val.q (5177 / 100)) :=
  (c6_price_rule
      { h3a := some { titleAttr := some "T", text := "T", href := some "x.html" },
        priceText := some "£51.77", ratingClasses := none, instockAvail := none,
        avail := none }
      "https://books.toscrape.com" _ rfl).2.1
    ['5', '1', '.', '7', '7'] (5177 / 100) (by decide)
    (by simp +decide [parseFloatRun, digitsToNat, List.takeWhile, List.dropWhile]
        norm_num)

/-! ### C7: stock count and the in-stock flag -/

/-- C7: for every successfully extracted card, `stock` equals the count
of the first case-insensitive `(<N> available)` match in the chosen
stock element's stripped text, falling back to the first bare integer
and defaulting to `0`; `in_stock` is true iff the stock element exists
and either carries the `instock` class token or its lowercased text
contains `available` or `in stock`. In particular the text
`In stock (19 available)` yields `stock=19, in_stock=true`, and
`Out of stock` with no in-stock class yields `stock=0, in_stock=false`. -/
theorem c7_stock_rule :
    (∀ (card : Card) (base_url : String) (r : Record),
      parse_book_card card base_url = some r →
      dictGet r "stock" = some (Val.i (stockCountOf card)) ∧
      dictGet r "in_stock" = some (Val.b (inStockOf card))) ∧
    (∃ r,
      parse_book_card
          { h3a := some { titleAttr := some "A", text := "A", href := some "a.html" },
            priceText := some "£10.00", ratingClasses := some ["star-rating", "Three"],
            instockAvail := some { classes := ["instock", "availability"],
                                   text := "In stock (19 available)" },
            avail := none }
          "https://books.toscrape.com" = some r ∧
      dictGet r "stock" = some (Val.i 19) ∧ dictGet r "in_stock" = some (Val.b true)) ∧
    (∃ r,
      parse_book_card
          { h3a := some { titleAttr := some "B", text := "B", href := some "b.html" },
            priceText := some "£10.00", ratingClasses := some ["star-rating", "One"],
            instockAvail := none,
            avail := some { classes := ["availability"], text := "Out of stock" } }
          "https://books.toscrape.com" = some r ∧
      dictGet r "stock" = some (Val.i 0) ∧ dictGet r "in_stock" = some (Val.b false)) := by
  refine ⟨?_, ⟨_, rfl, by decide, by decide⟩, ⟨_, rfl, by decide, by decide⟩⟩
  intro card base_url r h
  cases hc : card.h3a with
  | none => simp [parse_book_card, hc] at h
  | some l =>
    cases hp : cardPrice card with
    | none => simp [parse_book_card, hc, hp] at h
    | some price =>
      simp only [parse_book_card, hc, hp] at h
      injection h with h
      subst h
      exact ⟨rfl, rfl⟩

/-- C7 witness: the general rule applied to a concrete card whose stock
element text is `(3 available)`. -/
theorem c7_stock_rule_witness :
    dictGet
        [("title", Val.s "W2"), ("price", Val.q 0), ("rating", Val.i 0), ("stock", Val.i 3),
         ("in_stock", Val.b true),
         ("url", Val.s "https://books.toscrape.com/catalogue/w.html")]
        "stock"
      = some (Val.i (stockCountOf
          { h3a := some { titleAttr := some "W2", text := "W2", href := some "w.html" },
            priceText := none, ratingClasses := none, instockAvail := none,
            avail := some { classes := ["availability"], text := "(3 available)" } })) ∧
    dictGet
        [("title", Val.s "W2"), ("price", Val.q 0), ("rating", Val.i 0), ("stock", Val.i 3),
         ("in_stock", Val.b true),
         ("url", Val.s "https://books.toscrape.com/catalogue/w.html")]
        "in_stock"
      = some (Val.b (inStockOf
          { h3a := some { titleAttr := some "W2", text := "W2", href := some "w.html" },
            priceText := none, ratingClasses := none, instockAvail := none,
            avail := some { classes := ["availability"], text := "(3 available)" } })) :=
  c7_stock_rule.1
    { h3a := some { titleAttr := some "W2", text := "W2", href := some "w.html" },
      priceText := none, ratingClasses := none, instockAvail := none,
      avail := some { classes := ["availability"], text := "(3 available)" } }
    "https://books.toscrape.com"
    [("title", Val.s "W2"), ("price", Val.q 0), ("rating", Val.i 0), ("stock", Val.i 3),
     ("in_stock", Val.b true),
     ("url", Val.s "https://books.toscrape.com/catalogue/w.html")]
    (by decide)

/-! ### C2/C3: the retry loop of `make_request` -/

theorem requestLoop_attempts_le (outcome : Nat → AttemptOutcome) (config : ScraperConfig) :
    ∀ (fuel k : Nat), (requestLoop outcome config k fuel).attempts ≤ k + fuel := by
  intro fuel
  induction fuel with
  | zero => intro k; simp [requestLoop]
  | succ f ih =>
    intro k
    cases hcl : classifyOutcome (outcome k) with
    | success => simp [requestLoop, hcl]
    | terminalFail => simp [requestLoop, hcl]
    | retryable =>
      by_cases hf : f = 0
      · subst hf; simp [requestLoop, hcl]
      · simp only [requestLoop, hcl, if_neg hf]
        have := ih (k + 1)
        omega

theorem requestLoop_walk (outcome : Nat → AttemptOutcome) (config : ScraperConfig) :
    ∀ (k fuel : Nat), (∀ j, j < k → classifyOutcome (outcome j) = .retryable) →
      requestLoop outcome config 0 (k + fuel + 1) =
        { ok := (requestLoop outcome config k (fuel + 1)).ok
          attempts := (requestLoop outcome config k (fuel + 1)).attempts
          delays := (List.range k).map (backoff config)
            ++ (requestLoop outcome config k (fuel + 1)).delays } := by
  intro k
  induction k with
  | zero => intro fuel _; simp
  | succ n ih =>
    intro fuel hr
    have h1 : n + 1 + fuel + 1 = n + (fuel + 1) + 1 := by omega
    rw [h1, ih (fuel + 1) (fun j hj => hr j (by omega))]
    have hcl : classifyOutcome (outcome n) = .retryable := hr n (by omega)
    have h2 : requestLoop outcome config n (fuel + 1 + 1) =
        { ok := (requestLoop outcome config (n + 1) (fuel + 1)).ok
          attempts := (requestLoop outcome config (n + 1) (fuel + 1)).attempts
          delays := backoff config n
            :: (requestLoop outcome config (n + 1) (fuel + 1)).delays } := by
      simp [requestLoop, hcl]
    rw [h2]
    simp [List.range_succ]

theorem requestLoop_retry_before (outcome : Nat → AttemptOutcome) (config : ScraperConfig) :
    ∀ (fuel k0 k : Nat), k0 ≤ k →
      k + 1 < (requestLoop outcome config k0 fuel).attempts →
      classifyOutcome (outcome k) = .retryable := by
  intro fuel
  induction fuel with
  | zero => intro k0 k hk h; simp [requestLoop] at h; omega
  | succ f ih =>
    intro k0 k hk h
    cases hcl : classifyOutcome (outcome k0) with
    | success => simp [requestLoop, hcl] at h; omega
    | terminalFail => simp [requestLoop, hcl] at h; omega
    | retryable =>
      by_cases hf : f = 0
      · subst hf; simp [requestLoop, hcl] at h; omega
      · simp only [requestLoop, hcl, if_neg hf] at h
        by_cases hek : k = k0
        · subst hek; exact hcl
        · exact ih (k0 + 1) k (by omega) h

theorem requestLoop_delays_spec (outcome : Nat → AttemptOutcome) (config : ScraperConfig) :
    ∀ (fuel k : Nat),
      (requestLoop outcome config k fuel).delays =
        (List.range ((requestLoop outcome config k fuel).attempts - 1 - k)).map
          (fun i => backoff config (k + i)) ∧
      (1 ≤ fuel → k + 1 ≤ (requestLoop outcome config k fuel).attempts) := by
  intro fuel
  induction fuel with
  | zero => intro k; refine ⟨by simp [requestLoop], by omega⟩
  | succ f ih =>
    intro k
    cases hcl : classifyOutcome (outcome k) with
    | success => refine ⟨by simp [requestLoop, hcl], by simp [requestLoop, hcl]⟩
    | terminalFail => refine ⟨by simp [requestLoop, hcl], by simp [requestLoop, hcl]⟩
    | retryable =>
      by_cases hf : f = 0
      · subst hf
        refine ⟨by simp [requestLoop, hcl], by simp [requestLoop, hcl]⟩
      · have hf1 : 1 ≤ f := by omega
        have hih := ih (k + 1)
        have hA : k + 2 ≤ (requestLoop outcome config (k + 1) f).attempts := hih.2 hf1
        constructor
        · simp only [requestLoop, hcl, if_neg hf]
          rw [hih.1]
          have hs : (requestLoop outcome config (k + 1) f).attempts - 1 - k
              = ((requestLoop outcome config (k + 1) f).attempts - 1 - (k + 1)) + 1 := by
            omega
          rw [hs, List.range_succ_eq_map, List.map_cons, List.map_map]
          refine congrArg₂ List.cons (by simp) ?_
          refine List.map_congr_left ?_
          intro a _
          simp only [Function.comp_apply]
          rw [show k + (a + 1) = k + 1 + a from by omega]
        · intro _
          simp only [requestLoop, hcl, if_neg hf]
          omega

/-- C2: `make_request` issues at most `max_retries + 1` attempts,
returns the response at once on the first HTTP 200, gives up at once —
with no further attempt — on a 4xx status or a redirect-loop error,
continues past an attempt only when it was a 5xx status or a
network-level failure (connection error, timeout, `HTTPError`, generic
exception), and after all attempts fail returns the single failure
signal `None`. -/
theorem c2_fetch_retry_policy (outcome : Nat → AttemptOutcome) (config : ScraperConfig) :
    (make_request outcome config).attempts ≤ config.max_retries + 1 ∧
    (∀ k, k ≤ config.max_retries →
      (∀ j, j < k → classifyOutcome (outcome j) = .retryable) →
      (outcome k = .status 200 →
        (make_request outcome config).ok = true ∧
        (make_request outcome config).attempts = k + 1) ∧
      (((∃ c, outcome k = .status c ∧ 400 ≤ c ∧ c < 500) ∨ outcome k = .tooManyRedirects) →
        (make_request outcome config).ok = false ∧
        (make_request outcome config).attempts = k + 1)) ∧
    ((∀ j, j ≤ config.max_retries → classifyOutcome (outcome j) = .retryable) →
      (make_request outcome config).ok = false ∧
      (make_request outcome config).attempts = config.max_retries + 1) ∧
    (∀ k, k + 1 < (make_request outcome config).attempts →
      classifyOutcome (outcome k) = .retryable) ∧
    (∀ o, classifyOutcome o = .retryable ↔
      ((∃ c, o = .status c ∧ 500 ≤ c ∧ c < 600) ∨ o = .connError ∨ o = .timeoutErr ∨
        o = .httpError ∨ o = .otherExc)) := by
  refine ⟨?_, ?_, ?_, ?_, ?_⟩
  · have := requestLoop_attempts_le outcome config (config.max_retries + 1) 0
    simpa [make_request] using this
  · intro k hk hr
    have hm : config.max_retries + 1 = k + (config.max_retries - k) + 1 := by omega
    constructor
    · intro h200
      have hcl : classifyOutcome (outcome k) = .success := by
        rw [h200]; simp [classifyOutcome]
      have hstep : requestLoop outcome config k (config.max_retries - k + 1) =
          { ok := true, attempts := k + 1, delays := [] } := by
        simp [requestLoop, hcl]
      rw [make_request, hm, requestLoop_walk outcome config k _ hr, hstep]
      exact ⟨rfl, rfl⟩
    · intro hterm
      have hcl : classifyOutcome (outcome k) = .terminalFail := by
        rcases hterm with ⟨c, hc, h4, h5⟩ | hred
        · rw [hc]
          simp only [classifyOutcome]
          rw [if_neg (by omega), if_neg (by omega)]
        · rw [hred]; simp [classifyOutcome]
      have hstep : requestLoop outcome config k (config.max_retries - k + 1) =
          { ok := false, attempts := k + 1, delays := [] } := by
        simp [requestLoop, hcl]
      rw [make_request, hm, requestLoop_walk outcome config k _ hr, hstep]
      exact ⟨rfl, rfl⟩
  · intro hall
    have hm : config.max_retries + 1 = config.max_retries + 0 + 1 := by omega
    have hcl : classifyOutcome (outcome config.max_retries) = .retryable :=
      hall config.max_retries (Nat.le_refl _)
    have hstep : requestLoop outcome config config.max_retries 1 =
        { ok := false, attempts := config.max_retries + 1, delays := [] } := by
      simp [requestLoop, hcl]
    rw [make_request, hm,
        requestLoop_walk outcome config config.max_retries 0
          (fun j hj => hall j (by omega)),
        hstep]
    exact ⟨rfl, rfl⟩
  · intro k h
    exact requestLoop_retry_before outcome config (config.max_retries + 1) 0 k
      (Nat.zero_le k) h
  · intro o
    cases o with
    | status c =>
      by_cases h2 : c = 200
      · subst h2; simp [classifyOutcome]
      · by_cases h5 : 500 ≤ c ∧ c < 600
        · simp only [classifyOutcome, if_neg h2, if_pos h5]
          simp only [true_iff]
          exact Or.inl ⟨c, rfl, h5.1, h5.2⟩
        · simp only [classifyOutcome, if_neg h2, if_neg h5]
          constructor
          · intro hcon; exact absurd hcon (by simp)
          · rintro (⟨c2, hc2, hge, hlt⟩ | h | h | h | h) <;> first
              | (injection hc2 with hc2; subst hc2; exact absurd ⟨hge, hlt⟩ h5)
              | exact absurd h (by simp)
    | connError => simp [classifyOutcome]
    | timeoutErr => simp [classifyOutcome]
    | tooManyRedirects => simp [classifyOutcome]
    | httpError => simp [classifyOutcome]
    | otherExc => simp [classifyOutcome]

/-- C2 witness: a server that always answers 503 exhausts all
`max_retries + 1 = 4` attempts of `CUSTOM_CONFIG` and fails. -/
theorem c2_fetch_retry_policy_witness :
    (make_request (fun _ => AttemptOutcome.status 503) CUSTOM_CONFIG).ok = false ∧
    (make_request (fun _ => AttemptOutcome.status 503) CUSTOM_CONFIG).attempts
      = CUSTOM_CONFIG.max_retries + 1 :=
  (c2_fetch_retry_policy (fun _ => AttemptOutcome.status 503) CUSTOM_CONFIG).2.2.1
    (fun j _ => by decide)

/-- C3: the delays slept by `make_request` are exactly
`min(min_delay * 2^k, max_delay * 3)` for the 0-indexed attempts
`k = 0, …, attempts - 2` — one delay between consecutive attempts and,
since the list has `attempts - 1` entries, none after the final
attempt. -/
theorem c3_backoff_schedule (outcome : Nat → AttemptOutcome) (config : ScraperConfig) :
    (make_request outcome config).delays =
      (List.range ((make_request outcome config).attempts - 1)).map
        (fun k => min (config.min_delay * 2 ^ k) (config.max_delay * 3)) ∧
    (make_request outcome config).delays.length
      = (make_request outcome config).attempts - 1 := by
  have h := (requestLoop_delays_spec outcome config (config.max_retries + 1) 0).1
  have h2 : (make_request outcome config).delays =
      (List.range ((make_request outcome config).attempts - 1)).map
        (fun k => min (config.min_delay * 2 ^ k) (config.max_delay * 3)) := by
    unfold make_request
    rw [h]
    simp [backoff]
  refine ⟨h2, ?_⟩
  rw [h2, List.length_map, List.length_range]

/-! ### C4/C10: the enrichment stage -/

theorem hasKey_append {α : Type} (m1 m2 : List (String × α)) (k : String) :
    hasKey (m1 ++ m2) k = (hasKey m1 k || hasKey m2 k) := by
  induction m1 with
  | nil => simp [hasKey]
  | cons p t ih =>
    obtain ⟨k1, v1⟩ := p
    by_cases h : k1 = k <;> simp [hasKey, h, ih]

theorem buildIndex_aux (books : List Record) :
    ∀ m : List (String × Record),
      (∀ b ∈ books, hasKey m (urlOf b) = false) →
      (books.map urlOf).Nodup →
      books.foldl (fun m b => dictSet m (urlOf b) b) m
        = m ++ books.map (fun b => (urlOf b, b)) := by
  induction books with
  | nil => intro m _ _; simp
  | cons b t ih =>
    intro m hfresh hnd
    simp only [List.map_cons, List.nodup_cons] at hnd
    have hstep : dictSet m (urlOf b) b = m ++ [(urlOf b, b)] :=
      dictSet_fresh m (urlOf b) b (hfresh b (by simp))
    have hfresh2 : ∀ b2 ∈ t, hasKey (m ++ [(urlOf b, b)]) (urlOf b2) = false := by
      intro b2 hb2
      rw [hasKey_append]
      have hne : ¬(urlOf b = urlOf b2) := by
        intro he
        exact hnd.1 (he ▸ List.mem_map_of_mem urlOf hb2)
      simp [hasKey, hne, hfresh b2 (by simp [hb2])]
    show List.foldl (fun m b => dictSet m (urlOf b) b) (dictSet m (urlOf b) b) t = _
    rw [hstep, ih (m ++ [(urlOf b, b)]) hfresh2 hnd.2]
    simp

theorem buildIndex_eq (books : List Record) (hnd : (books.map urlOf).Nodup) :
    buildIndex books = books.map (fun b => (urlOf b, b)) := by
  have := buildIndex_aux books [] (by intro b _; rfl) hnd
  simpa [buildIndex] using this

theorem map_fst_applyTask (config : ScraperConfig) (oracle : String → Option Record)
    (m : List (String × Record)) (url : String) :
    (applyTask config oracle m url).map Prod.fst = m.map Prod.fst := by
  unfold applyTask
  split
  · rfl
  · split
    · rw [List.map_map]
      refine List.map_congr_left ?_
      intro p _
      by_cases h : p.1 = url <;> simp [h]
    · rfl

theorem map_fst_processTasks (config : ScraperConfig) (oracle : String → Option Record)
    (order : List String) :
    ∀ m, (processTasks config oracle order m).map Prod.fst = m.map Prod.fst := by
  induction order with
  | nil => intro m; rfl
  | cons url rest ih =>
    intro m
    show (processTasks config oracle rest (applyTask config oracle m url)).map Prod.fst = _
    rw [ih, map_fst_applyTask]

/-- The invariant the url-indexed map maintains: every entry's key is an
absolute http URL and matches the `url` field of its record. -/
def EntryInv (m : List (String × Record)) : Prop :=
  ∀ p ∈ m, pyStartsWith p.1 "http" = true ∧ dictGet p.2 "url" = some (Val.s p.1)

theorem applyTask_inv (config : ScraperConfig) (oracle : String → Option Record)
    (horacle : ∀ u d, oracle u = some d → (d.map Prod.fst).Nodup)
    (m : List (String × Record)) (url : String) (hm : EntryInv m) :
    EntryInv (applyTask config oracle m url) := by
  unfold applyTask
  split
  · exact hm
  · next detailed ht =>
    split
    · intro q hq
      rw [List.mem_map] at hq
      obtain ⟨p, hp, hpq⟩ := hq
      obtain ⟨hhttp, hurl⟩ := hm p hp
      by_cases h : p.1 = url
      · subst hpq
        simp only [h, if_true]
        refine ⟨h ▸ hhttp, ?_⟩
        unfold taskDetail at ht
        cases ho : oracle (resolveDetailUrl config url) with
        | none => rw [ho] at ht; exact absurd ht (by simp)
        | some d =>
          rw [ho] at ht
          injection ht with ht
          subst ht
          have hres : resolveDetailUrl config url = url := by
            unfold resolveDetailUrl
            rw [← h, hhttp]
            simp
          rw [dictGet_dictUpdate_mem _ _ _
                (map_fst_dictSet_nodup d "url" _ (horacle _ d ho))
                (hasKey_dictSet_self d "url" _),
              dictGet_dictSet_self, hres]
      · subst hpq
        simp only [h, if_false]
        exact ⟨hhttp, hurl⟩
    · exact hm

theorem processTasks_inv (config : ScraperConfig) (oracle : String → Option Record)
    (horacle : ∀ u d, oracle u = some d → (d.map Prod.fst).Nodup) (order : List String) :
    ∀ m, EntryInv m → EntryInv (processTasks config oracle order m) := by
  induction order with
  | nil => intro m hm; exact hm
  | cons url rest ih =>
    intro m hm
    exact ih _ (applyTask_inv config oracle horacle m url hm)

theorem mem_applyTask_of_fail (config : ScraperConfig) (oracle : String → Option Record)
    (u : String) (b : Record) (ho : oracle (resolveDetailUrl config u) = none)
    (m : List (String × Record)) (url : String) (hm : (u, b) ∈ m) :
    (u, b) ∈ applyTask config oracle m url := by
  unfold applyTask
  split
  · exact hm
  · next detailed ht =>
    split
    · have hne : ¬(u = url) := by
        intro he
        subst he
        unfold taskDetail at ht
        rw [ho] at ht
        exact absurd ht (by simp)
      have hfix :
          (fun p : String × Record => if p.1 = url then (p.1, dictUpdate p.2 detailed) else p)
            (u, b) = (u, b) := by simp [hne]
      exact hfix ▸ List.mem_map_of_mem _ hm
    · exact hm

theorem mem_processTasks_of_fail (config : ScraperConfig) (oracle : String → Option Record)
    (u : String) (b : Record) (hu : oracle (resolveDetailUrl config u) = none)
    (order : List String) :
    ∀ m, (u, b) ∈ m → (u, b) ∈ processTasks config oracle order m := by
  induction order with
  | nil => intro m hm; exact hm
  | cons url rest ih =>
    intro m hm
    exact ih _ (mem_applyTask_of_fail config oracle u b hu m url hm)

theorem enrichAll_map_urlOf (config : ScraperConfig) (books : List Record)
    (oracle : String → Option Record) (order : List String)
    (h1 : (books.map urlOf).Nodup)
    (h2 : ∀ b ∈ books, ∃ u, dictGet b "url" = some (Val.s u))
    (h3 : ∀ b ∈ books, pyStartsWith (urlOf b) "http" = true)
    (horacle : ∀ u d, oracle u = some d → (d.map Prod.fst).Nodup) :
    (enrichAll config books oracle order).map urlOf = books.map urlOf := by
  have hinv0 : EntryInv (buildIndex books) := by
    rw [buildIndex_eq books h1]
    intro p hp
    rw [List.mem_map] at hp
    obtain ⟨b, hb, hpb⟩ := hp
    subst hpb
    refine ⟨h3 b hb, ?_⟩
    obtain ⟨u, hu⟩ := h2 b hb
    have : urlOf b = u := by unfold urlOf; rw [hu]
    rw [hu, this]
  have hinv := processTasks_inv config oracle horacle order (buildIndex books) hinv0
  unfold enrichAll
  rw [List.map_map]
  have hcong :
      (processTasks config oracle order (buildIndex books)).map (urlOf ∘ Prod.snd)
        = (processTasks config oracle order (buildIndex books)).map Prod.fst := by
    refine List.map_congr_left ?_
    intro p hp
    obtain ⟨_, hurl⟩ := hinv p hp
    show urlOf p.2 = p.1
    unfold urlOf
    rw [hurl]
  rw [hcong, map_fst_processTasks, buildIndex_eq books h1, List.map_map]
  rfl

/-- C4: with pairwise distinct absolute base-record URLs, the
enrichment output has the same `url` set and the same cardinality as the
input, for every subset of failing detail tasks and every completion
order; a failed task's base record remains present and unmodified, and
no failure aborts the stage (it is a total function). -/
theorem c4_enrichment_url_set (config : ScraperConfig) (books : List Record)
    (oracle : String → Option Record) (order : List String)
    (h1 : (books.map urlOf).Nodup)
    (h2 : ∀ b ∈ books, ∃ u, dictGet b "url" = some (Val.s u))
    (h3 : ∀ b ∈ books, pyStartsWith (urlOf b) "http" = true)
    (horacle : ∀ u d, oracle u = some d → (d.map Prod.fst).Nodup) :
    ((enrichAll config books oracle order).map urlOf).toFinset
      = (books.map urlOf).toFinset ∧
    (enrichAll config books oracle order).length = books.length ∧
    (∀ b ∈ books, oracle (urlOf b) = none →
      b ∈ enrichAll config books oracle order) := by
  have hmap := enrichAll_map_urlOf config books oracle order h1 h2 h3 horacle
  refine ⟨by rw [hmap], ?_, ?_⟩
  · have := congrArg List.length hmap
    simpa using this
  · intro b hb ho
    have hres : resolveDetailUrl config (urlOf b) = urlOf b := by
      unfold resolveDetailUrl
      rw [h3 b hb]
      simp
    have hmem0 : (urlOf b, b) ∈ buildIndex books := by
      rw [buildIndex_eq books h1]
      exact List.mem_map_of_mem _ hb
    have hmem := mem_processTasks_of_fail config oracle (urlOf b) b
      (by rw [hres]; exact ho) order (buildIndex books) hmem0
    unfold enrichAll
    exact List.mem_map_of_mem Prod.snd hmem

/-- C4 witness: two base records, the first task failing and the second
succeeding, completion order reversed. -/
theorem c4_enrichment_url_set_witness :
    ((enrichAll CUSTOM_CONFIG
        [[("title", Val.s "x"), ("url", Val.s "https://b/1")],
         [("title", Val.s "y"), ("url", Val.s "https://b/2")]]
        (fun u => if u = "https://b/2" then some [("category", Val.s "c")] else none)
        ["https://b/2", "https://b/1"]).map urlOf).toFinset
      = (["https://b/1", "https://b/2"] : List String).toFinset ∧
    (enrichAll CUSTOM_CONFIG
        [[("title", Val.s "x"), ("url", Val.s "https://b/1")],
         [("title", Val.s "y"), ("url", Val.s "https://b/2")]]
        (fun u => if u = "https://b/2" then some [("category", Val.s "c")] else none)
        ["https://b/2", "https://b/1"]).length = 2 ∧
    [("title", Val.s "x"), ("url", Val.s "https://b/1")]
      ∈ enrichAll CUSTOM_CONFIG
        [[("title", Val.s "x"), ("url", Val.s "https://b/1")],
         [("title", Val.s "y"), ("url", Val.s "https://b/2")]]
        (fun u => if u = "https://b/2" then some [("category", Val.s "c")] else none)
        ["https://b/2", "https://b/1"] := by
  have h := c4_enrichment_url_set CUSTOM_CONFIG
    [[("title", Val.s "x"), ("url", Val.s "https://b/1")],
     [("title", Val.s "y"), ("url", Val.s "https://b/2")]]
    (fun u => if u = "https://b/2" then some [("category", Val.s "c")] else none)
    ["https://b/2", "https://b/1"]
    (by decide)
    (by
      intro b hb
      simp only [List.mem_cons, List.not_mem_nil, or_false] at hb
      rcases hb with rfl | rfl
      · exact ⟨"https://b/1", rfl⟩
      · exact ⟨"https://b/2", rfl⟩)
    (by decide)
    (by
      intro u d hd
      have hd2 : (if u = "https://b/2" then some [("category", Val.s "c")] else none)
          = some d := hd
      by_cases hu : u = "https://b/2"
      · rw [if_pos hu] at hd2
        injection hd2 with hd2
        subst hd2
        decide
      · rw [if_neg hu] at hd2
        exact absurd hd2 (by simp))
  refine ⟨h.1, h.2.1, h.2.2 _ (by simp) (by decide)⟩

/-- C10: with pairwise distinct absolute base-record URLs, the output
list of the enrichment stage is in base-record traversal order (the
records are indexed in page-traversal order, merges replace entries in
place, and `list(book_dict.values())` follows insertion order) — for
every completion order of the concurrent detail tasks. -/
theorem c10_enrichment_order (config : ScraperConfig) (books : List Record)
    (oracle : String → Option Record) (order : List String)
    (h1 : (books.map urlOf).Nodup)
    (h2 : ∀ b ∈ books, ∃ u, dictGet b "url" = some (Val.s u))
    (h3 : ∀ b ∈ books, pyStartsWith (urlOf b) "http" = true)
    (horacle : ∀ u d, oracle u = some d → (d.map Prod.fst).Nodup) :
    (enrichAll config books oracle order).map urlOf = books.map urlOf ∧
    (enrichAll config books oracle order).length = books.length := by
  have hmap := enrichAll_map_urlOf config books oracle order h1 h2 h3 horacle
  refine ⟨hmap, ?_⟩
  have := congrArg List.length hmap
  simpa using this

/-- C10 witness: the order theorem at two concrete records with the
tasks completing in reversed order. -/
theorem c10_enrichment_order_witness :
    (enrichAll CUSTOM_CONFIG
        [[("title", Val.s "x"), ("url", Val.s "https://b/1")],
         [("title", Val.s "y"), ("url", Val.s "https://b/2")]]
        (fun _ => some [("tax", Val.q 1)])
        ["https://b/2", "https://b/1"]).map urlOf
      = ["https://b/1", "https://b/2"] ∧
    (enrichAll CUSTOM_CONFIG
        [[("title", Val.s "x"), ("url", Val.s "https://b/1")],
         [("title", Val.s "y"), ("url", Val.s "https://b/2")]]
        (fun _ => some [("tax", Val.q 1)])
        ["https://b/2", "https://b/1"]).length = 2 :=
  c10_enrichment_order CUSTOM_CONFIG
    [[("title", Val.s "x"), ("url", Val.s "https://b/1")],
     [("title", Val.s "y"), ("url", Val.s "https://b/2")]]
    (fun _ => some [("tax", Val.q 1)])
    ["https://b/2", "https://b/1"]
    (by decide)
    (by
      intro b hb
      simp only [List.mem_cons, List.not_mem_nil, or_false] at hb
      rcases hb with rfl | rfl
      · exact ⟨"https://b/1", rfl⟩
      · exact ⟨"https://b/2", rfl⟩)
    (by decide)
    (by
      intro u d hd
      have hd2 : some [("tax", Val.q 1)] = some d := hd
      injection hd2 with hd2
      subst hd2
      decide)

/-! ### C8/C9: the paginated crawl -/

theorem crawlLoop_succ (site : String → Option PageDoc) (config : ScraperConfig)
    (maxPages : Option Nat) (current_url : String) (page_num fuel : Nat) :
    crawlLoop site config maxPages current_url page_num (fuel + 1) =
      if pageCap maxPages page_num then ([], [])
      else
        match (scrape_page site current_url config).2 with
        | some next_url =>
          ((scrape_page site current_url config).1
              ++ (crawlLoop site config maxPages next_url (page_num + 1) fuel).1,
            current_url :: (crawlLoop site config maxPages next_url (page_num + 1) fuel).2)
        | none => ((scrape_page site current_url config).1, [current_url]) := rfl

theorem scrape_page_of_some (site : String → Option PageDoc) (url : String)
    (config : ScraperConfig) (doc : PageDoc) (h : site url = some doc) :
    scrape_page site url config = (pageRecords doc config, pageNext doc url config) := by
  unfold scrape_page
  rw [h]

theorem scrape_page_of_none (site : String → Option PageDoc) (url : String)
    (config : ScraperConfig) (h : site url = none) :
    scrape_page site url config = ([], none) := by
  unfold scrape_page
  rw [h]

/-- C9: when fetching a catalog page fails (the fetch layer exhausted
its retries and `scrape_page` sees `None`), the crawl stops, returns
exactly the records accumulated from previously fetched pages, and the
failed page appears exactly once in the fetch trace — no pagination-
level retry, no propagated error. -/
theorem c9_fetch_failure_truncates (site : String → Option PageDoc) (d1 : PageDoc)
    (h1 : site "https://books.toscrape.com/catalogue/page-1.html" = some d1)
    (hn1 : d1.nextHref = some "catalogue/page-2.html")
    (h2 : site "https://books.toscrape.com/catalogue/page-2.html" = none) :
    scrape_all_pages site CUSTOM_CONFIG none 10
      = (pageRecords d1 CUSTOM_CONFIG,
         ["https://books.toscrape.com/catalogue/page-1.html",
          "https://books.toscrape.com/catalogue/page-2.html"]) := by
  have hnext : pageNext d1 "https://books.toscrape.com/catalogue/page-1.html" CUSTOM_CONFIG
      = some "https://books.toscrape.com/catalogue/page-2.html" := by
    unfold pageNext
    rw [hn1]
    decide
  have hbase : CUSTOM_CONFIG.base_url ++ "/catalogue/page-1.html"
      = "https://books.toscrape.com/catalogue/page-1.html" := rfl
  unfold scrape_all_pages
  rw [hbase, show (10 : Nat) = 9 + 1 from rfl, crawlLoop_succ,
      scrape_page_of_some site _ CUSTOM_CONFIG d1 h1, hnext]
  simp only [pageCap, if_false]
  rw [show (9 : Nat) = 8 + 1 from rfl, crawlLoop_succ,
      scrape_page_of_none site _ CUSTOM_CONFIG h2]
  simp [pageCap]

/-- C9 witness: the truncation theorem at a concrete two-page site whose
second page fails to fetch. -/
theorem c9_fetch_failure_truncates_witness :
    scrape_all_pages
        (fun u =>
          if u = "https://books.toscrape.com/catalogue/page-1.html" then
            some { bookCards := [], altBookCards := [], nextHref := some "catalogue/page-2.html" }
          else none)
        CUSTOM_CONFIG none 10
      = (pageRecords
          { bookCards := [], altBookCards := [], nextHref := some "catalogue/page-2.html" }
          CUSTOM_CONFIG,
         ["https://books.toscrape.com/catalogue/page-1.html",
          "https://books.toscrape.com/catalogue/page-2.html"]) :=
  c9_fetch_failure_truncates
    (fun u =>
      if u = "https://books.toscrape.com/catalogue/page-1.html" then
        some { bookCards := [], altBookCards := [], nextHref := some "catalogue/page-2.html" }
      else none)
    { bookCards := [], altBookCards := [], nextHref := some "catalogue/page-2.html" }
    (by decide) rfl (by decide)

/-- C8 (counterexample): with `max_pages = 0` — a set value whose
ordinal bound every page exceeds — the crawl nevertheless fetches page 1
(`if max_pages and page_num > max_pages` is falsy for `0`), so it does
not stop before fetching a page whose ordinal exceeds `max_pages`. -/
theorem c8_counterexample :
    (scrape_all_pages
        (fun u =>
          if u = "https://books.toscrape.com/catalogue/page-1.html" then
            some { bookCards := [], altBookCards := [], nextHref := none }
          else none)
        CUSTOM_CONFIG (some 0) 10).2
      = ["https://books.toscrape.com/catalogue/page-1.html"] := by
  decide

/-- C8 (amended): the crawl starts at page 1, appends each fetched
page's valid records in traversal order, stops normally when a page has
no next link, and for a positive `max_pages = m` stops before fetching
any page whose ordinal would exceed `m` (for `max_pages = 0`, a falsy
value, the cap is ignored): over any 3-page catalog it returns the three
pages' records in order and fetches exactly pages 1-3, and with
`max_pages = 2` it returns exactly the records of pages 1-2 and never
fetches page 3. -/
theorem c8_pagination (site : String → Option PageDoc) (d1 d2 d3 : PageDoc)
    (h1 : site "https://books.toscrape.com/catalogue/page-1.html" = some d1)
    (hn1 : d1.nextHref = some "catalogue/page-2.html")
    (h2 : site "https://books.toscrape.com/catalogue/page-2.html" = some d2)
    (hn2 : d2.nextHref = some "catalogue/page-3.html")
    (h3 : site "https://books.toscrape.com/catalogue/page-3.html" = some d3)
    (hn3 : d3.nextHref = none) :
    scrape_all_pages site CUSTOM_CONFIG none 10
      = (pageRecords d1 CUSTOM_CONFIG ++ (pageRecords d2 CUSTOM_CONFIG
          ++ pageRecords d3 CUSTOM_CONFIG),
         ["https://books.toscrape.com/catalogue/page-1.html",
          "https://books.toscrape.com/catalogue/page-2.html",
          "https://books.toscrape.com/catalogue/page-3.html"]) ∧
    scrape_all_pages site CUSTOM_CONFIG (some 2) 10
      = (pageRecords d1 CUSTOM_CONFIG ++ pageRecords d2 CUSTOM_CONFIG,
         ["https://books.toscrape.com/catalogue/page-1.html",
          "https://books.toscrape.com/catalogue/page-2.html"]) := by
  have hnext1 : pageNext d1 "https://books.toscrape.com/catalogue/page-1.html" CUSTOM_CONFIG
      = some "https://books.toscrape.com/catalogue/page-2.html" := by
    unfold pageNext; rw [hn1]; decide
  have hnext2 : pageNext d2 "https://books.toscrape.com/catalogue/page-2.html" CUSTOM_CONFIG
      = some "https://books.toscrape.com/catalogue/page-3.html" := by
    unfold pageNext; rw [hn2]; decide
  have hnext3 : pageNext d3 "https://books.toscrape.com/catalogue/page-3.html" CUSTOM_CONFIG
      = none := by
    unfold pageNext; rw [hn3]
  have hbase : CUSTOM_CONFIG.base_url ++ "/catalogue/page-1.html"
      = "https://books.toscrape.com/catalogue/page-1.html" := rfl
  constructor
  · unfold scrape_all_pages
    rw [hbase, show (10 : Nat) = 9 + 1 from rfl, crawlLoop_succ,
        scrape_page_of_some site _ CUSTOM_CONFIG d1 h1, hnext1]
    simp only [pageCap, if_false]
    rw [show (9 : Nat) = 8 + 1 from rfl, crawlLoop_succ,
        scrape_page_of_some site _ CUSTOM_CONFIG d2 h2, hnext2]
    simp only [pageCap, if_false]
    rw [show (8 : Nat) = 7 + 1 from rfl, crawlLoop_succ,
        scrape_page_of_some site _ CUSTOM_CONFIG d3 h3, hnext3]
    simp [pageCap]
  · unfold scrape_all_pages
    rw [hbase, show (10 : Nat) = 9 + 1 from rfl, crawlLoop_succ,
        scrape_page_of_some site _ CUSTOM_CONFIG d1 h1, hnext1]
    rw [show pageCap (some 2) 1 = false from rfl]
    simp only [if_false]
    rw [show (9 : Nat) = 8 + 1 from rfl, crawlLoop_succ,
        scrape_page_of_some site _ CUSTOM_CONFIG d2 h2, hnext2]
    rw [show pageCap (some 2) 2 = false from rfl]
    simp only [if_false]
    rw [show (8 : Nat) = 7 + 1 from rfl, crawlLoop_succ]
    rw [show pageCap (some 2) 3 = true from rfl]
    simp

/-- C8 witness: the amended pagination theorem at a concrete synthetic
3-page catalog. -/
theorem c8_pagination_witness :
    scrape_all_pages
        (fun u =>
          if u = "https://books.toscrape.com/catalogue/page-1.html" then
            some { bookCards := [], altBookCards := [], nextHref := some "catalogue/page-2.html" }
          else if u = "https://books.toscrape.com/catalogue/page-2.html" then
            some { bookCards := [], altBookCards := [], nextHref := some "catalogue/page-3.html" }
          else if u = "https://books.toscrape.com/catalogue/page-3.html" then
            some { bookCards := [], altBookCards := [], nextHref := none }
          else none)
        CUSTOM_CONFIG (some 2) 10
      = (pageRecords
            { bookCards := [], altBookCards := [], nextHref := some "catalogue/page-2.html" }
            CUSTOM_CONFIG
          ++ pageRecords
            { bookCards := [], altBookCards := [], nextHref := some "catalogue/page-3.html" }
            CUSTOM_CONFIG,
         ["https://books.toscrape.com/catalogue/page-1.html",
          "https://books.toscrape.com/catalogue/page-2.html"]) :=
  (c8_pagination
    (fun u =>
      if u = "https://books.toscrape.com/catalogue/page-1.html" then
        some { bookCards := [], altBookCards := [], nextHref := some "catalogue/page-2.html" }
      else if u = "https://books.toscrape.com/catalogue/page-2.html" then
        some { bookCards := [], altBookCards := [], nextHref := some "catalogue/page-3.html" }
      else if u = "https://books.toscrape.com/catalogue/page-3.html" then
        some { bookCards := [], altBookCards := [], nextHref := none }
      else none)
    { bookCards := [], altBookCards := [], nextHref := some "catalogue/page-2.html" }
    { bookCards := [], altBookCards := [], nextHref := some "catalogue/page-3.html" }
    { bookCards := [], altBookCards := [], nextHref := none }
    (by decide) rfl (by decide) rfl (by decide) rfl).2

end BooksScrape
